import Mathlib

/-!
Verification of the KPEIR vaccination-dashboard core (`app.py`): the Loader's
column normalization, the Schema Indexer's date-range bucket discovery, the
Filter Engine, and the Aggregator. Each Python construct is embedded as an
executable Lean definition; the theorems below settle the specified properties.
-/

namespace KPEIR

/-- The opening parenthesis character, written via its code point. -/
def lparen : Char := Char.ofNat 40

/-- The closing parenthesis character, written via its code point. -/
def rparen : Char := Char.ofNat 41

/-- Remove every occurrence of the character `c`, as Python
    `s.replace(c, "")` does for a single character. -/
def removeChar (c : Char) (l : List Char) : List Char :=
  l.filter (fun x => x ≠ c)

/-- Replace every occurrence of `a` by `b`, as Python `s.replace(a, b)`
    does for single characters. -/
def replaceChar (a b : Char) (l : List Char) : List Char :=
  l.map (fun x => if x = a then b else x)

/-- Line 55 of app.py, one column:
    `col.replace('(', '').replace(')', '').replace(' ', '_')`. -/
def cleanCol (s : String) : String :=
  ⟨replaceChar ' ' '_' (removeChar rparen (removeChar lparen s.data))⟩

/-- Line 55 of app.py applied to the whole header: the list comprehension
    over `df.columns`. -/
def clean_columns (cols : List String) : List String :=
  cols.map cleanCol

/-- One component of the date regex on line 59: `_[A-Za-z]{3}`, an underscore
    followed by exactly three ASCII letters. Returns the consumed characters
    and the remainder of the input. -/
def matchMon : List Char → Option (List Char × List Char)
  | '_' :: a :: b :: c :: rest =>
      if a.isAlpha && b.isAlpha && c.isAlpha then some (['_', a, b, c], rest) else none
  | _ => none

/-- The `\d{1,2}` component with the regex engine's greedy backtracking:
    try to consume two digits and continue with `next`; if that fails,
    consume one digit and continue. Returns the whole match from here on. -/
def matchDay (next : List Char → Option (List Char)) : List Char → Option (List Char)
  | [] => none
  | c1 :: rest1 =>
      if c1.isDigit then
        match rest1 with
        | c2 :: rest2 =>
            if c2.isDigit then
              match next rest2 with
              | some m => some (c1 :: c2 :: m)
              | none => (next rest1).map (fun m => c1 :: m)
            else (next rest1).map (fun m => c1 :: m)
        | [] => (next []).map (fun m => c1 :: m)
      else none

/-- Attempt the full pattern of line 59,
    `\d{1,2}_[A-Za-z]{3}-\d{1,2}_[A-Za-z]{3}`, at the start of `l`,
    returning the matched characters. -/
def matchDateRange (l : List Char) : Option (List Char) :=
  matchDay (fun r1 =>
    match matchMon r1 with
    | some (m1, r2) =>
        match r2 with
        | '-' :: r3 =>
            (matchDay (fun r4 =>
               match matchMon r4 with
               | some (m2, _) => some m2
               | none => none) r3).map (fun d2 => m1 ++ '-' :: d2)
        | _ => none
    | none => none) l

/-- Python `re.search` of the line-59 pattern: try the pattern at every
    position left to right and return the leftmost match (`.group()`). -/
def searchDateRange : List Char → Option (List Char)
  | [] => none
  | c :: rest =>
      match matchDateRange (c :: rest) with
      | some m => some m
      | none => searchDateRange rest

/-- String-level wrapper for the regex search of line 59. -/
def searchDate (s : String) : Option String :=
  (searchDateRange s.data).map (fun l => ⟨l⟩)

/-- Line 58: `col.startswith(('Reg', 'Vac'))`. -/
def startsWithRegVac : List Char → Bool
  | 'R' :: 'e' :: 'g' :: _ => true
  | 'V' :: 'a' :: 'c' :: _ => true
  | _ => false

/-- Line 58: the metric columns, those whose name starts with Reg or Vac. -/
def date_columns (cols : List String) : List String :=
  cols.filter (fun c => startsWithRegVac c.data)

/-- Python `sorted(set(...))` and `sorted(series.unique())`: the
    lexicographically sorted list of distinct values. -/
def sortedUnique (l : List String) : List String :=
  List.insertionSort (fun a b => a ≤ b) l.dedup

/-- Lines 59-60: collect the set of regex-extracted tokens of the metric
    columns and sort it. -/
def date_ranges (cols : List String) : List String :=
  sortedUnique ((date_columns cols).filterMap searchDate)

/-- Line 61: the synthesized column-name pair of a bucket,
    `[f'Reg<dr>', f'Vac<dr>']` written with string concatenation. -/
def date_to_columns (dr : String) : String × String :=
  ("Reg" ++ dr, "Vac" ++ dr)

/-- One row of the loaded table: the three categorical columns used for
    filtering (`UC`, `Epi_Mis_Facility_Name`, `VaccinatorName`) plus the
    remaining cells keyed by normalized column name. A blank (NaN) or absent
    cell is `none`. -/
structure Row where
  uc : String
  facility : String
  vaccinator : String
  cells : List (String × Option Int)
deriving DecidableEq

/-- Value of metric column `c` in a row; `none` when the cell is blank or
    the column is absent from the row. -/
def Row.cell (r : Row) (c : String) : Option Int :=
  match r.cells.find? (fun p => p.1 == c) with
  | some p => p.2
  | none => none

/-- The sidebar selections of lines 69, 72 and 75: each is either the literal
    string "All" (unconstrained) or a specific value. -/
structure Selection where
  uc : String
  facility : String
  vaccinator : String
deriving DecidableEq

/-- Lines 83-89: the three sequential conditional filters over the table
    (pandas boolean-mask selection keeps row order). -/
def filtered_df (df : List Row) (s : Selection) : List Row :=
  let t1 := if s.uc = "All" then df else df.filter (fun r => r.uc == s.uc)
  let t2 := if s.facility = "All" then t1 else t1.filter (fun r => r.facility == s.facility)
  if s.vaccinator = "All" then t2 else t2.filter (fun r => r.vaccinator == s.vaccinator)

/-- Spec-side row predicate of the Filter Engine contract: a row matches when
    every active (non-"All") equality constraint holds; an "All" selection
    matches every row. -/
def matchesSelection (s : Selection) (r : Row) : Bool :=
  (s.uc == "All" || r.uc == s.uc) &&
  ((s.facility == "All" || r.facility == s.facility) &&
   (s.vaccinator == "All" || r.vaccinator == s.vaccinator))

/-- What the Filter Engine hands to the Presentation Layer: either the "no
    data" warning signal or the filtered rows. -/
inductive FilterOutcome where
  | noData
  | data (rows : List Row)
deriving DecidableEq

/-- Lines 91-93: an empty filter result is reported as the non-error
    "No data for selected filters." signal (`st.warning` then `st.stop`);
    otherwise the rows flow on. -/
def filterOutcome (df : List Row) (s : Selection) : FilterOutcome :=
  if (filtered_df df s).isEmpty then FilterOutcome.noData
  else FilterOutcome.data (filtered_df df s)

/-- Line 74: the vaccinator candidate list. When both the unit and the
    facility selections are the literal "All", all distinct vaccinators;
    otherwise the distinct vaccinators of the rows whose `UC` equals the unit
    selection and whose facility equals the facility selection. -/
def vaccinators (df : List Row) (selected_uc selected_facility : String) : List String :=
  if selected_uc = "All" ∧ selected_facility = "All" then
    sortedUnique (df.map Row.vaccinator)
  else
    sortedUnique ((df.filter
      (fun r => r.uc == selected_uc && r.facility == selected_facility)).map Row.vaccinator)

/-- Spec-side candidate derivation: the sorted distinct vaccinator values
    among the rows matching both the unit and the facility constraints, an
    "All" selection matching every row. -/
def vaccinatorsSpec (df : List Row) (u f : String) : List String :=
  sortedUnique ((df.filter
    (fun r => (u == "All" || r.uc == u) && (f == "All" || r.facility == f))).map Row.vaccinator)

/-- Pandas `Series.sum()` with its default `skipna=True` (lines 100-101):
    every blank cell contributes zero. -/
def colSum (df : List Row) (c : String) : Int :=
  (df.map (fun r => (r.cell c).getD 0)).sum

/-- Lines 98-101: for each selected date range, in selection order, the pair
    of the registration total and the vaccination total. -/
def summaries (df : List Row) (selected : List String) : List (Int × Int) :=
  selected.map (fun dr => (colSum df (date_to_columns dr).1, colSum df (date_to_columns dr).2))

/-- Lines 78-80: an empty date-range multiselect falls back to the full
    discovered list and fires the `st.warning` of line 79; the Bool records
    whether the warning fired. -/
def resolveDateSelection (selected allRanges : List String) : List String × Bool :=
  if selected.isEmpty then (allRanges, true) else (selected, false)

/-- Outcome of `pd.read_excel` on the environment, abstracted: a table, the
    file missing (`FileNotFoundError`), or any other read/parse failure
    carrying its message. -/
inductive ReadResult where
  | ok (table : List Row)
  | fileNotFound
  | failure (msg : String)
deriving DecidableEq

/-- State `load_data` leaves the pipeline in: a loaded table, or a terminal
    stop (`st.error` followed by `st.stop`) with the user-visible message. -/
inductive LoadOutcome where
  | loaded (table : List Row)
  | notFound (msg : String)
  | loadError (msg : String)
deriving DecidableEq

/-- The single-quote character, written via its code point. -/
def squote : String := String.singleton (Char.ofNat 39)

/-- Line 46: the user-visible message of the missing-file branch. -/
def notFoundMsg : String :=
  "File " ++ squote ++ "progress_data.xlsx" ++ squote ++
    " not found. Ensure it is in the script" ++ squote ++ "s directory."

/-- Line 49: the user-visible message of the generic failure branch, the
    Python f-string interpolating `str(e)`. -/
def loadErrorMsg (e : String) : String :=
  "Error loading " ++ squote ++ "progress_data.xlsx" ++ squote ++ ": " ++ e

/-- Lines 42-50: `load_data`, with the two `except` branches mapped to the
    corresponding terminal outcomes. -/
def load_data : ReadResult → LoadOutcome
  | ReadResult.ok t => LoadOutcome.loaded t
  | ReadResult.fileNotFound => LoadOutcome.notFound notFoundMsg
  | ReadResult.failure e => LoadOutcome.loadError (loadErrorMsg e)

/-- The downstream pipeline (line 52 onward) receives a table only when
    loading succeeded; `st.stop` halts the script otherwise. -/
def loadedTable : LoadOutcome → Option (List Row)
  | LoadOutcome.loaded t => some t
  | _ => none

/-- Line 113: underscores of a date-range label turned into spaces for
    display, `date_range.replace("_", " ")`. -/
def displayLabel (dr : String) : String :=
  ⟨replaceChar '_' ' ' dr.data⟩

/-- Line 113: the human-readable display name of a registration column. -/
def displayReg (dr : String) : String :=
  "Reg (" ++ displayLabel dr ++ ")"

/-- Line 114: the human-readable display name of a vaccination column. -/
def displayVac (dr : String) : String :=
  "Vac (" ++ displayLabel dr ++ ")"

/-- Shape of the first regex component `\d{1,2}`: one or two ASCII digits. -/
def isDigits12 : List Char → Bool
  | [a] => a.isDigit
  | [a, b] => a.isDigit && b.isDigit
  | _ => false

/-- Shape of the month component `[A-Za-z]{3}`: exactly three ASCII letters. -/
def isMonth3 : List Char → Bool
  | [a, b, c] => a.isAlpha && b.isAlpha && c.isAlpha
  | _ => false

/-- Spec-side normalization of one column name, in one pass as worded in the
    spec: delete every parenthesis character, replace every space with an
    underscore. -/
def specNormalizeChars (l : List Char) : List Char :=
  (l.filter (fun c => ¬ (c = lparen ∨ c = rparen))).map (fun c => if c = ' ' then '_' else c)

theorem mem_sortedUnique (l : List String) (v : String) :
    v ∈ sortedUnique l ↔ v ∈ l := by
  unfold sortedUnique
  rw [(List.perm_insertionSort _ _).mem_iff, List.mem_dedup]

theorem sortedUnique_sorted (l : List String) :
    List.Sorted (fun a b => a ≤ b) (sortedUnique l) :=
  List.sorted_insertionSort _ _

theorem sortedUnique_nodup (l : List String) : (sortedUnique l).Nodup :=
  (List.perm_insertionSort _ _).nodup_iff.mpr (List.nodup_dedup l)

theorem condFilter_eq (t : List Row) (sel : String) (f : Row → String) :
    (if sel = "All" then t else t.filter (fun r => f r == sel)) =
      t.filter (fun r => sel == "All" || f r == sel) := by
  by_cases h : sel = "All"
  · simp [h]
  · simp [h, beq_eq_false_iff_ne.mpr h]

theorem filtered_df_eq_filter (df : List Row) (s : Selection) :
    filtered_df df s = df.filter (matchesSelection s) := by
  simp only [filtered_df]
  rw [condFilter_eq df s.uc (fun r => r.uc),
    condFilter_eq _ s.facility (fun r => r.facility),
    condFilter_eq _ s.vaccinator (fun r => r.vaccinator),
    List.filter_filter, List.filter_filter]
  apply List.filter_congr
  intro r _
  simp only [matchesSelection]
  cases h1 : (s.uc == "All" || r.uc == s.uc) <;>
    cases h2 : (s.facility == "All" || r.facility == s.facility) <;>
      cases h3 : (s.vaccinator == "All" || r.vaccinator == s.vaccinator) <;> rfl

/-- C3. The Filter Engine returns exactly the rows satisfying all active
    (non-"All") equality constraints conjunctively, an unset constraint
    matches every row, original row order is preserved (the result is a
    sublist of the table), and an empty result is reported as the non-error
    "no data" outcome rather than a crash. -/
theorem filter_engine_correct (df : List Row) (s : Selection) :
    filtered_df df s = df.filter (matchesSelection s) ∧
    (filtered_df df s).Sublist df ∧
    (filterOutcome df s = FilterOutcome.noData ↔ filtered_df df s = []) := by
  refine ⟨filtered_df_eq_filter df s, ?_, ?_⟩
  · rw [filtered_df_eq_filter df s]
    exact List.filter_sublist df
  · unfold filterOutcome
    by_cases h : (filtered_df df s).isEmpty
    · simp [h, List.isEmpty_iff.mp h]
    · simp only [h, if_neg, Bool.false_eq_true, not_false_eq_true, if_false]
      constructor
      · intro hc
        exact absurd hc (by simp)
      · intro he
        exact absurd (List.isEmpty_iff.mpr he) (by simp [h])

/-- C6. Replacing one unset ("All") selection by any specific value never
    adds rows: the result under the strengthened selection is a sublist of
    (hence a subset of, and no longer than) the result under the original
    selection, for each of the three filters. -/
theorem filter_engine_monotone (df : List Row) (u f v w : String) :
    (filtered_df df ⟨w, f, v⟩).Sublist (filtered_df df ⟨"All", f, v⟩) ∧
    (filtered_df df ⟨u, w, v⟩).Sublist (filtered_df df ⟨u, "All", v⟩) ∧
    (filtered_df df ⟨u, f, w⟩).Sublist (filtered_df df ⟨u, f, "All"⟩) ∧
    (filtered_df df ⟨w, f, v⟩).length ≤ (filtered_df df ⟨"All", f, v⟩).length ∧
    (filtered_df df ⟨u, w, v⟩).length ≤ (filtered_df df ⟨u, "All", v⟩).length ∧
    (filtered_df df ⟨u, f, w⟩).length ≤ (filtered_df df ⟨u, f, "All"⟩).length := by
  have huc : (filtered_df df ⟨w, f, v⟩).Sublist (filtered_df df ⟨"All", f, v⟩) := by
    rw [filtered_df_eq_filter, filtered_df_eq_filter]
    apply List.monotone_filter_right
    intro r hr
    simp only [matchesSelection, Bool.and_eq_true, Bool.or_eq_true] at hr ⊢
    exact ⟨Or.inl (by simp), hr.2⟩
  have hfac : (filtered_df df ⟨u, w, v⟩).Sublist (filtered_df df ⟨u, "All", v⟩) := by
    rw [filtered_df_eq_filter, filtered_df_eq_filter]
    apply List.monotone_filter_right
    intro r hr
    simp only [matchesSelection, Bool.and_eq_true, Bool.or_eq_true] at hr ⊢
    exact ⟨hr.1, Or.inl (by simp), hr.2.2⟩
  have hvac : (filtered_df df ⟨u, f, w⟩).Sublist (filtered_df df ⟨u, f, "All"⟩) := by
    rw [filtered_df_eq_filter, filtered_df_eq_filter]
    apply List.monotone_filter_right
    intro r hr
    simp only [matchesSelection, Bool.and_eq_true, Bool.or_eq_true] at hr ⊢
    exact ⟨hr.1, hr.2.1, Or.inl (by simp)⟩
  exact ⟨huc, hfac, hvac, huc.length_le, hfac.length_le, hvac.length_le⟩

theorem normalizeChars_eq (l : List Char) :
    replaceChar ' ' '_' (removeChar rparen (removeChar lparen l)) = specNormalizeChars l := by
  unfold removeChar replaceChar specNormalizeChars
  rw [List.filter_filter]
  apply congrArg
  apply List.filter_congr
  intro a _
  by_cases h1 : a = lparen <;> by_cases h2 : a = rparen <;> simp [h1, h2]

theorem cleanCol_eq_spec (s : String) : cleanCol s = ⟨specNormalizeChars s.data⟩ :=
  congrArg String.mk (normalizeChars_eq s.data)

/-- C9. The Loader's normalization rewrites every column name by deleting
    every parenthesis character and replacing every space with an underscore,
    and it is applied uniformly to the whole header. -/
theorem loader_normalization (cols : List String) (s : String) :
    clean_columns cols = cols.map (fun c => (⟨specNormalizeChars c.data⟩ : String)) ∧
    (cleanCol s).data = specNormalizeChars s.data := by
  constructor
  · unfold clean_columns
    induction cols with
    | nil => rfl
    | cons a t ih => simp only [List.map_cons, ih, cleanCol_eq_spec a]
  · exact congrArg String.data (cleanCol_eq_spec s)

/-- C4. The Aggregator yields, for each selected bucket in selection order,
    the sum of its registration column and the sum of its vaccination column
    over the filtered table, and a blank cell contributes zero to a column
    sum rather than causing a failure. -/
theorem aggregator_sums (df : List Row) (sel : List String) :
    (summaries df sel).length = sel.length ∧
    (∀ i : Nat, (summaries df sel)[i]? =
      (sel[i]?).map (fun dr => (colSum df ("Reg" ++ dr), colSum df ("Vac" ++ dr)))) ∧
    (∀ (r : Row) (t : List Row) (c : String),
      r.cell c = none → colSum (r :: t) c = colSum t c) := by
  refine ⟨by simp [summaries], ?_, ?_⟩
  · intro i
    simp [summaries, List.getElem?_map, date_to_columns]
  · intro r t c h
    simp [colSum, h]

/-- Witness for C4 at a concrete blank cell. -/
theorem aggregator_sums_witness :
    (⟨"U", "F", "V", [("Reg1_Jan-7_Jan", none)]⟩ : Row).cell ("Reg1_Jan-7_Jan") = none ∧
    colSum [(⟨"U", "F", "V", [("Reg1_Jan-7_Jan", none)]⟩ : Row)] ("Reg1_Jan-7_Jan") =
      colSum [] ("Reg1_Jan-7_Jan") :=
  ⟨by decide, (aggregator_sums [] []).2.2 _ [] _ (by decide)⟩

/-- C5. An empty date-range selection falls back to the full discovered set,
    emits the warning signal (the Bool of `resolveDateSelection`), and the
    subsequent aggregation runs over all discovered buckets. -/
theorem empty_selection_fallback (allRanges : List String) (df : List Row) :
    resolveDateSelection [] allRanges = (allRanges, true) ∧
    summaries df (resolveDateSelection [] allRanges).1 = summaries df allRanges := by
  constructor <;> rfl

/-- C8. A missing input file yields the terminal `notFound` outcome whose
    user-visible message names the missing file, and no table reaches the
    pipeline; any other read failure yields the terminal `loadError` outcome,
    also halting the pipeline. -/
theorem loader_failure_modes (e : String) :
    load_data ReadResult.fileNotFound = LoadOutcome.notFound notFoundMsg ∧
    (∃ a b, notFoundMsg = a ++ "progress_data.xlsx" ++ b) ∧
    loadedTable (load_data ReadResult.fileNotFound) = none ∧
    load_data (ReadResult.failure e) = LoadOutcome.loadError (loadErrorMsg e) ∧
    loadedTable (load_data (ReadResult.failure e)) = none := by
  refine ⟨rfl, ⟨"File " ++ squote,
    squote ++ " not found. Ensure it is in the script" ++ squote ++ "s directory.",
    by decide⟩, rfl, rfl, rfl⟩

/-- C1 counterexample. A table whose header holds only the registration
    column of a token still gets a bucket for that token, although the
    vaccination column `Vac<token>` does not exist in the table: bucket
    discovery never checks that both columns are present. -/
theorem bucket_discovery_cex :
    date_ranges [("Reg1_Jan-7_Jan")] = [("1_Jan-7_Jan")] ∧
    (date_to_columns ("1_Jan-7_Jan")).2 ∉ [("Reg1_Jan-7_Jan")] := by decide

/-- C1 amended. A bucket labelled `t` is discovered iff some column starting
    with Reg or Vac contains a date-range substring whose leftmost regex
    match is `t`; the labels are unique and lexicographically sorted. The
    synthesized `Reg<t>`/`Vac<t>` column names are not checked for existence
    in the table. -/
theorem bucket_discovery_amended (cols : List String) (t : String) :
    (t ∈ date_ranges cols ↔
      ∃ c ∈ cols, startsWithRegVac c.data = true ∧ searchDate c = some t) ∧
    List.Sorted (fun a b => a ≤ b) (date_ranges cols) ∧
    (date_ranges cols).Nodup := by
  refine ⟨?_, sortedUnique_sorted _, sortedUnique_nodup _⟩
  unfold date_ranges date_columns
  rw [mem_sortedUnique]
  simp only [List.mem_filterMap, List.mem_filter]
  constructor
  · rintro ⟨c, ⟨hc, hp⟩, hs⟩
    exact ⟨c, hc, hp, hs⟩
  · rintro ⟨c, hc, hp, hs⟩
    exact ⟨c, ⟨hc, hp⟩, hs⟩

/-- C2 counterexample. With the unit selection "All" and a specific facility,
    the code filters on `UC == "All"` literally, so the candidate list is
    empty although a row with that facility (and vaccinator "V1") exists;
    the spec-side derivation returns that vaccinator. -/
theorem vaccinator_candidates_cex :
    vaccinators [(⟨"U1", "F1", "V1", []⟩ : Row)] ("All") ("F1") = [] ∧
    vaccinatorsSpec [(⟨"U1", "F1", "V1", []⟩ : Row)] ("All") ("F1") = [("V1")] := by decide

/-- C2 amended. The vaccinator candidates are the sorted distinct vaccinator
    values of all rows when both the unit and the facility selections are
    "All", and otherwise of the rows whose `UC` literally equals the unit
    selection and whose facility equals the facility selection — so with unit
    "All" and a specific facility the unit comparison is against the literal
    string "All", not unconstrained. -/
theorem vaccinator_candidates_amended (df : List Row) (u f v : String) :
    (v ∈ vaccinators df u f ↔
      (if u = "All" ∧ f = "All" then ∃ r ∈ df, r.vaccinator = v
       else ∃ r ∈ df, r.uc = u ∧ r.facility = f ∧ r.vaccinator = v)) ∧
    List.Sorted (fun a b => a ≤ b) (vaccinators df u f) ∧
    (vaccinators df u f).Nodup := by
  refine ⟨?_, ?_, ?_⟩
  · unfold vaccinators
    by_cases h : u = "All" ∧ f = "All"
    · rw [if_pos h, if_pos h, mem_sortedUnique]
      simp [List.mem_map]
    · rw [if_neg h, if_neg h, mem_sortedUnique]
      simp only [List.mem_map, List.mem_filter, Bool.and_eq_true, beq_iff_eq]
      constructor
      · rintro ⟨r, ⟨hr, hu, hf⟩, he⟩
        exact ⟨r, hr, hu, hf, he⟩
      · rintro ⟨r, hr, hu, hf, he⟩
        exact ⟨r, ⟨hr, hu, hf⟩, he⟩
  · unfold vaccinators
    by_cases h : u = "All" ∧ f = "All"
    · rw [if_pos h]
      exact sortedUnique_sorted _
    · rw [if_neg h]
      exact sortedUnique_sorted _
  · unfold vaccinators
    by_cases h : u = "All" ∧ f = "All"
    · rw [if_pos h]
      exact sortedUnique_nodup _
    · rw [if_neg h]
      exact sortedUnique_nodup _

/-- C10. Selecting "All" for any of the three filters leaves that column
    unconstrained: with all three at "All" every row is returned, and with
    one selection at "All" that column is not consulted at all. Hence no
    selection expresses an equality constraint against the value "All", and
    a row holding the literal string "All" in the unit, facility or
    vaccinator column can never be separated from a row agreeing on the
    other two columns: any result containing the former contains the
    latter. -/
theorem all_rows_never_isolated (df : List Row) (u f v : String) (s : Selection)
    (r rB : Row) :
    filtered_df df ⟨"All", "All", "All"⟩ = df ∧
    filtered_df df ⟨"All", f, v⟩ = df.filter
      (fun x => (f == "All" || x.facility == f) && (v == "All" || x.vaccinator == v)) ∧
    filtered_df df ⟨u, "All", v⟩ = df.filter
      (fun x => (u == "All" || x.uc == u) && (v == "All" || x.vaccinator == v)) ∧
    filtered_df df ⟨u, f, "All"⟩ = df.filter
      (fun x => (u == "All" || x.uc == u) && (f == "All" || x.facility == f)) ∧
    (rB ∈ df → r.uc = "All" → r.facility = rB.facility → r.vaccinator = rB.vaccinator →
      r ∈ filtered_df df s → rB ∈ filtered_df df s) ∧
    (rB ∈ df → r.facility = "All" → r.uc = rB.uc → r.vaccinator = rB.vaccinator →
      r ∈ filtered_df df s → rB ∈ filtered_df df s) ∧
    (rB ∈ df → r.vaccinator = "All" → r.uc = rB.uc → r.facility = rB.facility →
      r ∈ filtered_df df s → rB ∈ filtered_df df s) := by
  refine ⟨?_, ?_, ?_, ?_, ?_, ?_, ?_⟩
  · rw [filtered_df_eq_filter]
    simp [matchesSelection]
  · rw [filtered_df_eq_filter]
    apply List.filter_congr
    intro x _
    simp [matchesSelection]
  · rw [filtered_df_eq_filter]
    apply List.filter_congr
    intro x _
    simp [matchesSelection]
  · rw [filtered_df_eq_filter]
    apply List.filter_congr
    intro x _
    simp [matchesSelection]
  · intro hmemB huc hfac hvac hr
    rw [filtered_df_eq_filter] at hr ⊢
    rw [List.mem_filter] at hr ⊢
    refine ⟨hmemB, ?_⟩
    have hm := hr.2
    simp only [matchesSelection, Bool.and_eq_true, Bool.or_eq_true, beq_iff_eq] at hm ⊢
    obtain ⟨h1, h2, h3⟩ := hm
    refine ⟨?_, ?_, ?_⟩
    · rcases h1 with h1 | h1
      · exact Or.inl h1
      · exact Or.inl (by rw [← h1, huc])
    · rcases h2 with h2 | h2
      · exact Or.inl h2
      · exact Or.inr (by rw [← hfac, h2])
    · rcases h3 with h3 | h3
      · exact Or.inl h3
      · exact Or.inr (by rw [← hvac, h3])
  · intro hmemB hfacAll huc hvac hr
    rw [filtered_df_eq_filter] at hr ⊢
    rw [List.mem_filter] at hr ⊢
    refine ⟨hmemB, ?_⟩
    have hm := hr.2
    simp only [matchesSelection, Bool.and_eq_true, Bool.or_eq_true, beq_iff_eq] at hm ⊢
    obtain ⟨h1, h2, h3⟩ := hm
    refine ⟨?_, ?_, ?_⟩
    · rcases h1 with h1 | h1
      · exact Or.inl h1
      · exact Or.inr (by rw [← huc, h1])
    · rcases h2 with h2 | h2
      · exact Or.inl h2
      · exact Or.inl (by rw [← h2, hfacAll])
    · rcases h3 with h3 | h3
      · exact Or.inl h3
      · exact Or.inr (by rw [← hvac, h3])
  · intro hmemB hvacAll huc hfac hr
    rw [filtered_df_eq_filter] at hr ⊢
    rw [List.mem_filter] at hr ⊢
    refine ⟨hmemB, ?_⟩
    have hm := hr.2
    simp only [matchesSelection, Bool.and_eq_true, Bool.or_eq_true, beq_iff_eq] at hm ⊢
    obtain ⟨h1, h2, h3⟩ := hm
    refine ⟨?_, ?_, ?_⟩
    · rcases h1 with h1 | h1
      · exact Or.inl h1
      · exact Or.inr (by rw [← huc, h1])
    · rcases h2 with h2 | h2
      · exact Or.inl h2
      · exact Or.inr (by rw [← hfac, h2])
    · rcases h3 with h3 | h3
      · exact Or.inl h3
      · exact Or.inl (by rw [← h3, hvacAll])

/-- Witness for C10: a table holding a row whose facility column is the
    literal string "All" and a second row agreeing on unit and vaccinator;
    under the selection (unit "U", facility "All", vaccinator "All") the
    first row is kept, hence so is the second. -/
theorem all_rows_never_isolated_witness :
    (⟨"U", "F2", "V", []⟩ : Row) ∈
      filtered_df [(⟨"U", "All", "V", []⟩ : Row), (⟨"U", "F2", "V", []⟩ : Row)]
        ⟨"U", "All", "All"⟩ :=
  (all_rows_never_isolated
      [(⟨"U", "All", "V", []⟩ : Row), (⟨"U", "F2", "V", []⟩ : Row)] "U" "All" "All"
      ⟨"U", "All", "All"⟩ ⟨"U", "All", "V", []⟩ ⟨"U", "F2", "V", []⟩).2.2.2.2.2.1
    (by decide) rfl rfl rfl (by decide)

theorem isDigits12_shape (d : List Char) (h : isDigits12 d = true) :
    (∃ a, d = [a] ∧ a.isDigit = true) ∨
    (∃ a b, d = [a, b] ∧ a.isDigit = true ∧ b.isDigit = true) := by
  rcases d with _ | ⟨a, _ | ⟨b, _ | ⟨c, t⟩⟩⟩
  · simp [isDigits12] at h
  · exact Or.inl ⟨a, rfl, h⟩
  · simp only [isDigits12, Bool.and_eq_true] at h
    exact Or.inr ⟨a, b, rfl, h.1, h.2⟩
  · simp [isDigits12] at h

theorem isMonth3_shape (m : List Char) (h : isMonth3 m = true) :
    ∃ a b c, m = [a, b, c] ∧ a.isAlpha = true ∧ b.isAlpha = true ∧ c.isAlpha = true := by
  rcases m with _ | ⟨a, _ | ⟨b, _ | ⟨c, _ | ⟨d, t⟩⟩⟩⟩
  · simp [isMonth3] at h
  · simp [isMonth3] at h
  · simp [isMonth3] at h
  · simp only [isMonth3, Bool.and_eq_true] at h
    exact ⟨a, b, c, rfl, h.1.1, h.1.2, h.2⟩
  · simp [isMonth3] at h

theorem mem_digits12 (d : List Char) (h : isDigits12 d = true) :
    ∀ c ∈ d, c.isDigit = true := by
  rcases isDigits12_shape d h with ⟨a, rfl, ha⟩ | ⟨a, b, rfl, ha, hb⟩ <;> intro c hc <;>
    simp only [List.mem_singleton, List.mem_cons, List.not_mem_nil, or_false] at hc
  · rwa [hc]
  · rcases hc with rfl | rfl
    · exact ha
    · exact hb

theorem mem_month3 (m : List Char) (h : isMonth3 m = true) :
    ∀ c ∈ m, c.isAlpha = true := by
  rcases isMonth3_shape m h with ⟨a, b, d, rfl, ha, hb, hd⟩
  intro c hc
  simp only [List.mem_cons, List.not_mem_nil, or_false] at hc
  rcases hc with rfl | rfl | rfl
  · exact ha
  · exact hb
  · exact hd

theorem token_chars (d1 m1 d2 m2 : List Char)
    (h1 : isDigits12 d1 = true) (h2 : isMonth3 m1 = true)
    (h3 : isDigits12 d2 = true) (h4 : isMonth3 m2 = true) :
    ∀ c ∈ d1 ++ '_' :: m1 ++ '-' :: d2 ++ '_' :: m2,
      c.isDigit = true ∨ c.isAlpha = true ∨ c = '_' ∨ c = '-' := by
  intro c hc
  simp only [List.mem_append, List.mem_cons] at hc
  rcases hc with ((hc | rfl | hc) | rfl | hc) | rfl | hc
  · exact Or.inl (mem_digits12 d1 h1 c hc)
  · exact Or.inr (Or.inr (Or.inl rfl))
  · exact Or.inr (Or.inl (mem_month3 m1 h2 c hc))
  · exact Or.inr (Or.inr (Or.inr rfl))
  · exact Or.inl (mem_digits12 d2 h3 c hc)
  · exact Or.inr (Or.inr (Or.inl rfl))
  · exact Or.inr (Or.inl (mem_month3 m2 h4 c hc))

theorem token_avoids (d1 m1 d2 m2 : List Char)
    (h1 : isDigits12 d1 = true) (h2 : isMonth3 m1 = true)
    (h3 : isDigits12 d2 = true) (h4 : isMonth3 m2 = true)
    (c : Char) (g1 : c.isDigit = false) (g2 : c.isAlpha = false)
    (g3 : ¬ c = '_') (g4 : ¬ c = '-') :
    c ∉ d1 ++ '_' :: m1 ++ '-' :: d2 ++ '_' :: m2 := by
  intro hm
  rcases token_chars d1 m1 d2 m2 h1 h2 h3 h4 c hm with h | h | h | h
  · rw [g1] at h
    exact Bool.false_ne_true h
  · rw [g2] at h
    exact Bool.false_ne_true h
  · exact g3 h
  · exact g4 h

theorem removeChar_append (c : Char) (l1 l2 : List Char) :
    removeChar c (l1 ++ l2) = removeChar c l1 ++ removeChar c l2 := by
  unfold removeChar
  exact List.filter_append _ _

theorem replaceChar_append (a b : Char) (l1 l2 : List Char) :
    replaceChar a b (l1 ++ l2) = replaceChar a b l1 ++ replaceChar a b l2 := by
  unfold replaceChar
  exact List.map_append _ _ _

theorem removeChar_of_notMem (c : Char) (l : List Char) (h : c ∉ l) :
    removeChar c l = l := by
  unfold removeChar
  rw [List.filter_eq_self]
  intro a ha
  have hne : a ≠ c := fun e => h (e ▸ ha)
  simp [hne]

theorem not_mem_replaceChar (a b c : Char) (l : List Char) (h : c ∉ l) (hb : c ≠ b) :
    c ∉ replaceChar a b l := by
  unfold replaceChar
  intro hm
  rcases List.mem_map.mp hm with ⟨x, hx, he⟩
  by_cases hxa : x = a
  · rw [if_pos hxa] at he
    exact hb he.symm
  · rw [if_neg hxa] at he
    exact h (he ▸ hx)

theorem replaceChar_cons (a b c : Char) (t : List Char) :
    replaceChar a b (c :: t) = (if c = a then b else c) :: replaceChar a b t := rfl

theorem replaceChar_roundtrip (l : List Char) (h : ' ' ∉ l) :
    replaceChar ' ' '_' (replaceChar '_' ' ' l) = l := by
  induction l with
  | nil => rfl
  | cons c t ih =>
    have hc : ¬ c = ' ' := fun e => h (by rw [e]; exact List.mem_cons_self _ _)
    have ht : ' ' ∉ t := fun m => h (List.mem_cons_of_mem c m)
    by_cases hu : c = '_'
    · simp [replaceChar_cons, hu, ih ht]
    · simp [replaceChar_cons, hu, hc, ih ht]

theorem displayReg_data (body : List Char) :
    (displayReg ⟨body⟩).data =
      ['R', 'e', 'g', ' ', lparen] ++ (replaceChar '_' ' ' body ++ [rparen]) := by
  have h1 : (displayReg ⟨body⟩).data =
      "Reg (".data ++ replaceChar '_' ' ' body ++ ")".data := by
    unfold displayReg displayLabel
    rw [String.data_append, String.data_append]
  rw [h1]
  have h2 : "Reg (".data = ['R', 'e', 'g', ' ', lparen] := by decide
  have h3 : ")".data = [rparen] := by decide
  rw [h2, h3, List.append_assoc]

theorem displayVac_data (body : List Char) :
    (displayVac ⟨body⟩).data =
      ['V', 'a', 'c', ' ', lparen] ++ (replaceChar '_' ' ' body ++ [rparen]) := by
  have h1 : (displayVac ⟨body⟩).data =
      "Vac (".data ++ replaceChar '_' ' ' body ++ ")".data := by
    unfold displayVac displayLabel
    rw [String.data_append, String.data_append]
  rw [h1]
  have h2 : "Vac (".data = ['V', 'a', 'c', ' ', lparen] := by decide
  have h3 : ")".data = [rparen] := by decide
  rw [h2, h3, List.append_assoc]

theorem clean_displayReg (body : List Char) (hsp : ' ' ∉ body)
    (hlp : lparen ∉ body) (hrp : rparen ∉ body) :
    (cleanCol (displayReg ⟨body⟩)).data = ['R', 'e', 'g', '_'] ++ body := by
  have hS1 : lparen ∉ replaceChar '_' ' ' body :=
    not_mem_replaceChar '_' ' ' lparen body hlp (by decide)
  have hS2 : rparen ∉ replaceChar '_' ' ' body :=
    not_mem_replaceChar '_' ' ' rparen body hrp (by decide)
  have g1 : removeChar lparen ['R', 'e', 'g', ' ', lparen] = ['R', 'e', 'g', ' '] := by decide
  have g2 : removeChar lparen [rparen] = [rparen] := by decide
  have g3 : removeChar rparen ['R', 'e', 'g', ' '] = ['R', 'e', 'g', ' '] := by decide
  have g4 : removeChar rparen [rparen] = [] := by decide
  have g5 : replaceChar ' ' '_' ['R', 'e', 'g', ' '] = ['R', 'e', 'g', '_'] := by decide
  show replaceChar ' ' '_'
      (removeChar rparen (removeChar lparen (displayReg ⟨body⟩).data)) = _
  rw [displayReg_data,
    removeChar_append lparen ['R', 'e', 'g', ' ', lparen] (replaceChar '_' ' ' body ++ [rparen]),
    removeChar_append lparen (replaceChar '_' ' ' body) [rparen],
    g1, g2, removeChar_of_notMem lparen _ hS1,
    removeChar_append rparen ['R', 'e', 'g', ' '] (replaceChar '_' ' ' body ++ [rparen]),
    removeChar_append rparen (replaceChar '_' ' ' body) [rparen],
    g3, g4, removeChar_of_notMem rparen _ hS2, List.append_nil,
    replaceChar_append ' ' '_' ['R', 'e', 'g', ' '] (replaceChar '_' ' ' body),
    g5, replaceChar_roundtrip body hsp]

theorem clean_displayVac (body : List Char) (hsp : ' ' ∉ body)
    (hlp : lparen ∉ body) (hrp : rparen ∉ body) :
    (cleanCol (displayVac ⟨body⟩)).data = ['V', 'a', 'c', '_'] ++ body := by
  have hS1 : lparen ∉ replaceChar '_' ' ' body :=
    not_mem_replaceChar '_' ' ' lparen body hlp (by decide)
  have hS2 : rparen ∉ replaceChar '_' ' ' body :=
    not_mem_replaceChar '_' ' ' rparen body hrp (by decide)
  have g1 : removeChar lparen ['V', 'a', 'c', ' ', lparen] = ['V', 'a', 'c', ' '] := by decide
  have g2 : removeChar lparen [rparen] = [rparen] := by decide
  have g3 : removeChar rparen ['V', 'a', 'c', ' '] = ['V', 'a', 'c', ' '] := by decide
  have g4 : removeChar rparen [rparen] = [] := by decide
  have g5 : replaceChar ' ' '_' ['V', 'a', 'c', ' '] = ['V', 'a', 'c', '_'] := by decide
  show replaceChar ' ' '_'
      (removeChar rparen (removeChar lparen (displayVac ⟨body⟩).data)) = _
  rw [displayVac_data,
    removeChar_append lparen ['V', 'a', 'c', ' ', lparen] (replaceChar '_' ' ' body ++ [rparen]),
    removeChar_append lparen (replaceChar '_' ' ' body) [rparen],
    g1, g2, removeChar_of_notMem lparen _ hS1,
    removeChar_append rparen ['V', 'a', 'c', ' '] (replaceChar '_' ' ' body ++ [rparen]),
    removeChar_append rparen (replaceChar '_' ' ' body) [rparen],
    g3, g4, removeChar_of_notMem rparen _ hS2, List.append_nil,
    replaceChar_append ' ' '_' ['V', 'a', 'c', ' '] (replaceChar '_' ' ' body),
    g5, replaceChar_roundtrip body hsp]

theorem matchDateRange_token (d1 m1 d2 m2 : List Char)
    (h1 : isDigits12 d1 = true) (h2 : isMonth3 m1 = true)
    (h3 : isDigits12 d2 = true) (h4 : isMonth3 m2 = true) :
    matchDateRange (d1 ++ '_' :: m1 ++ '-' :: d2 ++ '_' :: m2) =
      some (d1 ++ '_' :: m1 ++ '-' :: d2 ++ '_' :: m2) := by
  have e1 : ('_').isDigit = false := by decide
  rcases isMonth3_shape m1 h2 with ⟨x, y, z, rfl, hx, hy, hz⟩
  rcases isMonth3_shape m2 h4 with ⟨u, v, w, rfl, hu, hv, hw⟩
  rcases isDigits12_shape d1 h1 with ⟨a, rfl, ha⟩ | ⟨a, b, rfl, ha, hb⟩
  · rcases isDigits12_shape d2 h3 with ⟨p, rfl, hp⟩ | ⟨p, q, rfl, hp, hq⟩
    · simp [matchDateRange, matchDay, matchMon, ha, hx, hy, hz, hp, hu, hv, hw, e1]
    · simp [matchDateRange, matchDay, matchMon, ha, hx, hy, hz, hp, hq, hu, hv, hw, e1]
  · rcases isDigits12_shape d2 h3 with ⟨p, rfl, hp⟩ | ⟨p, q, rfl, hp, hq⟩
    · simp [matchDateRange, matchDay, matchMon, ha, hb, hx, hy, hz, hp, hu, hv, hw, e1]
    · simp [matchDateRange, matchDay, matchMon, ha, hb, hx, hy, hz, hp, hq, hu, hv, hw, e1]

theorem matchDateRange_nonDigit (c : Char) (l : List Char) (h : c.isDigit = false) :
    matchDateRange (c :: l) = none := by
  simp [matchDateRange, matchDay, h]

theorem searchDateRange_cons_nonDigit (c : Char) (l : List Char) (h : c.isDigit = false) :
    searchDateRange (c :: l) = searchDateRange l := by
  simp [searchDateRange, matchDateRange_nonDigit c l h]

theorem searchDateRange_after (pre : List Char) (hpre : ∀ c ∈ pre, c.isDigit = false)
    (d1 m1 d2 m2 : List Char)
    (h1 : isDigits12 d1 = true) (h2 : isMonth3 m1 = true)
    (h3 : isDigits12 d2 = true) (h4 : isMonth3 m2 = true) :
    searchDateRange (pre ++ (d1 ++ '_' :: m1 ++ '-' :: d2 ++ '_' :: m2)) =
      some (d1 ++ '_' :: m1 ++ '-' :: d2 ++ '_' :: m2) := by
  induction pre with
  | nil =>
    rw [List.nil_append]
    have hm := matchDateRange_token d1 m1 d2 m2 h1 h2 h3 h4
    rcases isDigits12_shape d1 h1 with ⟨a, he, ha⟩ | ⟨a, b, he, ha, hb⟩ <;> subst he <;>
      simp only [List.cons_append, List.nil_append, List.append_assoc] at hm ⊢ <;>
        simp [searchDateRange, hm]
  | cons c t ih =>
    rw [List.cons_append, searchDateRange_cons_nonDigit c _ (hpre c (List.mem_cons_self c t))]
    exact ih (fun x hx => hpre x (List.mem_cons_of_mem c hx))

/-- C7. For every well-formed bucket label (one-or-two digits, underscore,
    three letters, hyphen, same again), renaming its registration or
    vaccination column to the human-readable display form and mapping back
    via the known prefix convention — normalizing the display name exactly as
    the Loader does and extracting the date token exactly as the Schema
    Indexer does — recovers the original label. -/
theorem display_roundtrip (d1 m1 d2 m2 : List Char)
    (h1 : isDigits12 d1 = true) (h2 : isMonth3 m1 = true)
    (h3 : isDigits12 d2 = true) (h4 : isMonth3 m2 = true) :
    searchDate (cleanCol (displayReg ⟨d1 ++ '_' :: m1 ++ '-' :: d2 ++ '_' :: m2⟩)) =
      some (⟨d1 ++ '_' :: m1 ++ '-' :: d2 ++ '_' :: m2⟩ : String) ∧
    searchDate (cleanCol (displayVac ⟨d1 ++ '_' :: m1 ++ '-' :: d2 ++ '_' :: m2⟩)) =
      some (⟨d1 ++ '_' :: m1 ++ '-' :: d2 ++ '_' :: m2⟩ : String) := by
  have hsp : ' ' ∉ d1 ++ '_' :: m1 ++ '-' :: d2 ++ '_' :: m2 :=
    token_avoids d1 m1 d2 m2 h1 h2 h3 h4 ' ' (by decide) (by decide) (by decide) (by decide)
  have hlp : lparen ∉ d1 ++ '_' :: m1 ++ '-' :: d2 ++ '_' :: m2 :=
    token_avoids d1 m1 d2 m2 h1 h2 h3 h4 lparen (by decide) (by decide) (by decide) (by decide)
  have hrp : rparen ∉ d1 ++ '_' :: m1 ++ '-' :: d2 ++ '_' :: m2 :=
    token_avoids d1 m1 d2 m2 h1 h2 h3 h4 rparen (by decide) (by decide) (by decide) (by decide)
  constructor
  · unfold searchDate
    rw [clean_displayReg _ hsp hlp hrp,
      searchDateRange_after ['R', 'e', 'g', '_'] (by decide) d1 m1 d2 m2 h1 h2 h3 h4]
    rfl
  · unfold searchDate
    rw [clean_displayVac _ hsp hlp hrp,
      searchDateRange_after ['V', 'a', 'c', '_'] (by decide) d1 m1 d2 m2 h1 h2 h3 h4]
    rfl

/-- Witness for C7 at the bucket label "1_Jan-7_Jan". -/
theorem display_roundtrip_witness :
    isDigits12 ['1'] = true ∧ isMonth3 ['J', 'a', 'n'] = true ∧
    searchDate (cleanCol (displayReg ("1_Jan-7_Jan"))) = some ("1_Jan-7_Jan") ∧
    searchDate (cleanCol (displayVac ("1_Jan-7_Jan"))) = some ("1_Jan-7_Jan") := by
  have h := display_roundtrip ['1'] ['J', 'a', 'n'] ['7'] ['J', 'a', 'n']
    (by decide) (by decide) (by decide) (by decide)
  exact ⟨by decide, by decide, h.1, h.2⟩

end KPEIR
